import Mathlib

/-!
Verification of `codebaselister/main.py` (class `CodebaseLister`) against its
natural-language specification.

The embedding models:
* the gitignore-style matching engine (the Python code delegates to the
  external `pathspec` library, which is not part of this repository; the
  matcher is therefore modelled from the specification, section 4.1);
* the walker `list_files` over an explicit directory-tree value
  (`os.walk` in top-down order: a directory's file entries first, then each
  subdirectory recursively, children in the order the filesystem reports);
* the reading/aggregation pipeline `read_file_content`,
  `_read_files_content`, `generate_listing_file`, including the Python
  generator semantics of `file_paths = self.list_files()`: a generator is
  consumed at most once, and `len()` applied to a generator object raises
  `TypeError`.
-/

namespace CodebaseLister

/-! ## Ignore rules (modelled from the spec, section 4.1)

Modelled from the spec: the matching engine lives in the external `pathspec`
library (`pathspec.PathSpec.from_lines('gitwildmatch', ...)` and
`spec.match_file`), which is not part of this repository.  Per the spec: blank
lines and `#` comment lines are skipped; a leading `!` negates a rule; `*` and
`?` are shell-glob wildcards inside a path segment; a rule whose text has no
`/` may match the file name at any depth; evaluation is in file order with
last-match-wins. -/

/-- One parsed ignore rule: possibly negated, with its glob text. -/
structure IgnoreRule where
  negated : Bool
  glob : String
deriving Repr, DecidableEq

/-- Shell-glob matching of a glob (as a character list) against a name:
`*` matches any (possibly empty) character sequence (a rule without `/` is
applied to a single path segment, so `*` cannot cross a separator there),
`?` any single character, every other character matches itself. -/
def globMatch : List Char → List Char → Bool
  | [], cs => cs.isEmpty
  | '*' :: ps, cs => (List.range (cs.length + 1)).any fun k => globMatch ps (cs.drop k)
  | '?' :: _, [] => false
  | '?' :: ps, _ :: cs => globMatch ps cs
  | _ :: _, [] => false
  | p :: ps, c :: cs => p == c && globMatch ps cs

/-- The final path segment of a slash-separated path, as characters:
everything after the last `/`. -/
def basenameChars (cs : List Char) : List Char :=
  (cs.reverse.takeWhile fun c => c != '/').reverse

/-- Whether a single rule matches a path.  A glob containing no `/` is
matched against the path's final segment (it may match at any depth); a glob
containing `/` is matched against the whole path. -/
def ruleMatches (r : IgnoreRule) (path : String) : Bool :=
  if r.glob.data.contains '/' then globMatch r.glob.data path.data
  else globMatch r.glob.data (basenameChars path.data)

/-- Parse one line of a `.gitignore` file: blank lines and comment lines
yield no rule; a leading `!` marks a negation rule. -/
def parseLine (line : String) : Option IgnoreRule :=
  match line.data with
  | [] => none
  | '#' :: _ => none
  | '!' :: rest => some ⟨true, String.mk rest⟩
  | _ => some ⟨false, line⟩

/-- Compile the lines of a `.gitignore` file into the ordered rule list. -/
def compile (lines : List String) : List IgnoreRule :=
  lines.filterMap parseLine

/-- One evaluation step in file order: a matching rule overwrites the
accumulated outcome (`some true` = excluded, `some false` = re-included). -/
def matchStep (path : String) (acc : Option Bool) (r : IgnoreRule) : Option Bool :=
  if ruleMatches r path then some (!r.negated) else acc

/-- `matches` of a rule set: rules are evaluated in file order and each
matching rule overwrites the outcome, so the last matching rule decides;
no match means not excluded.  `true` means the path is ignored (excluded). -/
def psMatches (rules : List IgnoreRule) (path : String) : Bool :=
  (rules.foldl (matchStep path) none).getD false

/-! ## Filesystem model and the walker -/

mutual
/-- A directory tree: the file names directly in the directory, and the
named subdirectories, both in the (stable) order the filesystem reports. -/
inductive FSTree where
  | dir (files : List String) (subdirs : SubDirs)
/-- The ordered named subdirectories of a directory. -/
inductive SubDirs where
  | nil
  | cons (name : String) (tree : FSTree) (rest : SubDirs)
end

/-- `os.path.join` for a root with no trailing separator. -/
def pjoin (root name : String) : String :=
  root ++ "/" ++ name

mutual
/-- `os.walk` in top-down order: yields the pair (root path, file names)
for the directory itself first, then recursively for each subdirectory in
order.  Directory entries themselves are never yielded as files. -/
def osWalk (path : String) : FSTree → List (String × List String)
  | .dir files subdirs => (path, files) :: osWalkSub path subdirs
/-- `osWalk` over each subdirectory in order. -/
def osWalkSub (path : String) : SubDirs → List (String × List String)
  | .nil => []
  | .cons name t rest => osWalk (pjoin path name) t ++ osWalkSub path rest
end

/-- The world a run sees: the directory tree under `base_path`, the content
of `<base_path>/.gitignore` when that file exists, and the outcome of
opening-and-reading each path (`Except.error` carries the message of the
raised exception, of whatever kind: missing file, permission, decoding...). -/
structure World where
  tree : FSTree
  gitignore : Option (List String)
  readResult : String → Except String String

/-- The constructor-set state of a `CodebaseLister` object. -/
structure Lister where
  base_path : String
  use_gitignore : Bool
  output_filename : String

/-- `load_gitignore`: compile `<base>/.gitignore`; a `FileNotFoundError`
(no such file) is caught and `None` is returned. -/
def load_gitignore (w : World) : Option (List IgnoreRule) :=
  w.gitignore.map compile

/-- The spec object used by `list_files`: `None` when `use_gitignore` is
false, otherwise whatever `load_gitignore` produced. -/
def specOf (L : Lister) (w : World) : Option (List IgnoreRule) :=
  if L.use_gitignore then load_gitignore w else none

/-- The guard `if spec and spec.match_file(file_path)`: a `None` spec is
falsy, so nothing is excluded. -/
def specExcludes (spec : Option (List IgnoreRule)) (path : String) : Bool :=
  match spec with
  | some rules => psMatches rules path
  | none => false

/-- `list_files`: the sequence of paths the generator yields, in order:
for each `(root, files)` of the walk, each `os.path.join(root, file)` that
the spec does not exclude. -/
def list_files (L : Lister) (w : World) : List String :=
  (osWalk L.base_path w.tree).flatMap fun rf =>
    rf.2.filterMap fun f =>
      let fp := pjoin rf.1 f
      if specExcludes (specOf L w) fp then none else some fp

/-- Every regular file under the base path, in walk order, unfiltered. -/
def allFiles (L : Lister) (w : World) : List String :=
  (osWalk L.base_path w.tree).flatMap fun rf =>
    rf.2.map (pjoin rf.1)

/-! ## Reading and aggregation -/

/-- `read_file_content`: the decoded content on success; any raised
exception whatsoever is caught and turned into the diagnostic string. -/
def read_file_content (w : World) (p : String) : String :=
  match w.readResult p with
  | .ok c => c
  | .error e => "Error reading file: " ++ e

/-- A Python generator object over strings: the elements it has not yet
yielded.  A `for` loop that runs to completion leaves it exhausted. -/
structure Gen where
  remaining : List String

/-- One iteration of the loop in `_read_files_content`: a path equal to the
output file name is skipped; otherwise the read content's length is added
to the running count and the content appended. -/
def readLoopStep (L : Lister) (w : World) (acc : Nat × List String) (p : String) :
    Nat × List String :=
  if p == L.output_filename then acc
  else
    let content := read_file_content w p
    (acc.1 + content.length, acc.2 ++ [content])

/-- `_read_files_content`: iterates the whole generator (leaving it
exhausted) and returns `(chars_count, contents)` together with the
generator's state after the loop. -/
def read_files_content (L : Lister) (w : World) (g : Gen) :
    (Nat × List String) × Gen :=
  (g.remaining.foldl (readLoopStep L w) (0, []), ⟨[]⟩)

/-- A Python runtime error that a statement of the pipeline can raise. -/
inductive PyErr where
  | typeError
  | indexError
deriving Repr, DecidableEq

deriving instance DecidableEq for Except

/-- Python `len()` applied to a generator object raises `TypeError`
(generators have no `__len__`). -/
def genLen (_ : Gen) : Except PyErr Nat :=
  .error .typeError

/-- The write loop of `generate_listing_file`:
`for idx, path in enumerate(file_paths)` over whatever the generator still
yields, skipping paths equal to the output file name (the index still
advances), emitting the entry `(path, contents[idx])`; `contents[idx]`
raises `IndexError` when `idx` is out of range. -/
def writeEntriesLoop (out : String) (contents : List String) :
    Nat → List String → Except PyErr (List (String × String))
  | _, [] => .ok []
  | idx, p :: rest =>
    if p == out then writeEntriesLoop out contents (idx + 1) rest
    else
      match contents[idx]? with
      | none => .error .indexError
      | some c => (writeEntriesLoop out contents (idx + 1) rest).map fun es => (p, c) :: es

/-- The text written to the output stream for one entry:
`outfile.write(f"# {path}:\n")` then `outfile.write(content + "\n\n")`. -/
def renderEntry (e : String × String) : String :=
  "# " ++ e.1 ++ ":\n" ++ e.2 ++ "\n\n"

/-- The entries the write loop of `generate_listing_file` produces: the
generator bound to `file_paths` was already exhausted by
`_read_files_content`, and the loop iterates what remains of it. -/
def generated_entries (L : Lister) (w : World) :
    Except PyErr (List (String × String)) :=
  let g : Gen := ⟨list_files L w⟩
  let rc := read_files_content L w g
  writeEntriesLoop L.output_filename rc.1.2 0 rc.2.remaining

/-- The metadata dictionary `generate_listing_file` would return. -/
structure ListingResult where
  output_filename : String
  chars_count : Nat
  file_size_bytes : Nat
  files_count : Nat
deriving Repr, DecidableEq

/-- `generate_listing_file`: binds `file_paths` to the `list_files`
generator, runs `_read_files_content` (which exhausts it), re-iterates the
same generator to write the output file, then builds the result — whose
`files_count` field evaluates `len(file_paths)` on the generator.  Returns
the text written to the output file together with the returned dictionary
or the raised runtime error.  (`file_size` is kept in bytes; the source
divides the byte size by 1024*1024.) -/
def generate_listing_file (L : Lister) (w : World) :
    String × Except PyErr ListingResult :=
  let g : Gen := ⟨list_files L w⟩
  let rc := read_files_content L w g
  let chars_count := rc.1.1
  match writeEntriesLoop L.output_filename rc.1.2 0 rc.2.remaining with
  | .error e => ("", .error e)
  | .ok entries =>
    let written := String.join (entries.map renderEntry)
    match genLen rc.2 with
    | .error e => (written, .error e)
    | .ok n => (written, .ok ⟨L.output_filename, chars_count, written.utf8ByteSize, n⟩)

/-! ## Concrete runs used by the claims -/

/-- A lister over base path `base` writing to `out.txt`. -/
def L0 : Lister :=
  ⟨"base", true, "out.txt"⟩

/-- A lister like `L0` but constructed with `use_gitignore=False`. -/
def L2 : Lister :=
  ⟨"base", false, "out.txt"⟩

/-- A root holding one file `a.txt` with content `hello`, no `.gitignore`. -/
def W0 : World :=
  ⟨.dir ["a.txt"] .nil, none,
   fun p => if p == "base/a.txt" then .ok "hello" else .error "No such file or directory"⟩

/-- The spec's scenario: the root holds `a.txt` (content `hello`), `b.log`,
and a `.gitignore` whose single line is `*.log`. -/
def W1 : World :=
  ⟨.dir ["a.txt", "b.log"] .nil, some ["*.log"],
   fun p =>
     if p == "base/a.txt" then .ok "hello"
     else if p == "base/b.log" then .ok "logdata"
     else .error "No such file or directory"⟩

/-- The world `W0` with every read failing: same tree and `.gitignore`,
different read outcomes. -/
def W0p : World :=
  ⟨.dir ["a.txt"] .nil, none, fun _ => .error "Permission denied"⟩

/-! ## Theorems -/

/-- Folding the match steps in file order from any accumulator gives the
outcome of the last matching rule, and the accumulator when no rule
matches. -/
theorem foldl_matchStep_eq_find (path : String) (rules : List IgnoreRule)
    (acc : Option Bool) :
    rules.foldl (matchStep path) acc =
      match rules.reverse.find? (fun r => ruleMatches r path) with
      | some r => some (!r.negated)
      | none => acc := by
  induction rules generalizing acc with
  | nil => rfl
  | cons r rs ih =>
    rw [List.foldl_cons, ih, List.reverse_cons, List.find?_append]
    cases hfind : rs.reverse.find? fun r => ruleMatches r path with
    | some r' => simp [Option.or]
    | none =>
      rw [List.find?_cons]
      cases hq : ruleMatches r path with
      | true => simp [Option.or, matchStep, hq]
      | false => simp [Option.or, matchStep, hq]

/-- Claim C1: ignore matching is last-match-wins.  For every rule list and
path, the fold in file order yields the outcome of the last rule that
matches the path (`true`, i.e. excluded, for a plain rule; `false`, i.e.
included, for a negation rule) and `false` (included) when no rule matches;
and on the rule list `["*.log", "!keep.log"]` the path `keep.log` is
included while `other.log` is excluded. -/
theorem C1_last_match_wins :
    (∀ (rules : List IgnoreRule) (path : String),
        psMatches rules path =
          match rules.reverse.find? (fun r => ruleMatches r path) with
          | some r => !r.negated
          | none => false)
  ∧ psMatches (compile ["*.log", "!keep.log"]) "keep.log" = false
  ∧ psMatches (compile ["*.log", "!keep.log"]) "other.log" = true := by
  refine ⟨fun rules path => ?_, by decide, by decide⟩
  rw [psMatches, foldl_matchStep_eq_find]
  cases rules.reverse.find? fun r => ruleMatches r path <;> rfl

/-- Claim C2 (code bug): on a root with the single readable file
`base/a.txt` of content `hello`, `_read_files_content` counts 5 characters,
yet the text written to the output file is empty — the write loop
re-iterates the generator `_read_files_content` already exhausted — and
`generate_listing_file` then raises `TypeError` at `len(file_paths)`
instead of returning a result whose `chars_count` matches what was
written. -/
theorem C2_chars_count_never_returned :
    (read_files_content L0 W0 ⟨list_files L0 W0⟩).1.1 = 5
  ∧ (generate_listing_file L0 W0).1 = ""
  ∧ (generate_listing_file L0 W0).2 = Except.error PyErr.typeError := by
  refine ⟨by decide, by decide, by decide⟩

/-- Claim C3 (code bug): in the spec's scenario (root with `a.txt` of
content `hello`, `b.log`, and a `.gitignore` line `*.log`) the walker
yields exactly one path, but `generate_listing_file` raises `TypeError`
when it evaluates `len(file_paths)` on the generator object, so no result
with `files_count == 1` (or any `files_count`) is ever returned. -/
theorem C3_files_count_type_error :
    list_files L0 W1 = ["base/a.txt"]
  ∧ (read_files_content L0 W1 ⟨list_files L0 W1⟩).1.1 = 5
  ∧ (generate_listing_file L0 W1).2 = Except.error PyErr.typeError := by
  refine ⟨by decide, by decide, by decide⟩

/-- Claim C6 (code bug): in the spec's scenario the output should hold one
block, `# base/a.txt:` followed by `hello` and a blank line, but the loop
that writes blocks iterates the generator already exhausted by
`_read_files_content`, so the text written to the output file is empty. -/
theorem C6_no_blocks_written :
    list_files L0 W1 = ["base/a.txt"]
  ∧ renderEntry ("base/a.txt", "hello") = "# base/a.txt:\nhello\n\n"
  ∧ (generate_listing_file L0 W1).1 = "" := by
  refine ⟨by decide, by decide, by decide⟩

/-- Every entry the write loop emits carries a path different from the
output file name: the loop skips equal paths by exact string comparison. -/
theorem writeEntriesLoop_no_self (out : String) (contents : List String)
    (paths : List String) :
    ∀ (idx : Nat) (es : List (String × String)),
      writeEntriesLoop out contents idx paths = .ok es →
      ∀ e ∈ es, e.1 ≠ out := by
  induction paths with
  | nil =>
    intro idx es h e he
    simp only [writeEntriesLoop] at h
    cases h
    cases he
  | cons p rest ih =>
    intro idx es h e he
    simp only [writeEntriesLoop] at h
    by_cases hp : (p == out) = true
    · rw [if_pos hp] at h
      exact ih (idx + 1) es h e he
    · rw [if_neg hp] at h
      cases hc : contents[idx]? with
      | none => rw [hc] at h; cases h
      | some c =>
        rw [hc] at h
        cases hrec : writeEntriesLoop out contents (idx + 1) rest with
        | error err => rw [hrec] at h; cases h
        | ok es' =>
          rw [hrec] at h
          simp only [Except.map] at h
          cases h
          cases he with
          | head => simpa using hp
          | tail _ hmem => exact ih (idx + 1) es' hrec e hmem

/-- Claim C4: the generated output never contains an entry for the output
file itself: every entry list a run's write loop produces — and, in
general, every entry list `writeEntriesLoop` returns for any path
sequence — contains no entry whose path equals the configured output name,
the comparison being exact string equality. -/
theorem C4_no_entry_for_output_file :
    (∀ (L : Lister) (w : World) (es : List (String × String)),
        generated_entries L w = .ok es → ∀ e ∈ es, e.1 ≠ L.output_filename)
  ∧ (∀ (out : String) (contents paths : List String) (idx : Nat)
        (es : List (String × String)),
        writeEntriesLoop out contents idx paths = .ok es →
        ∀ e ∈ es, e.1 ≠ out) := by
  constructor
  · intro L w es h
    exact writeEntriesLoop_no_self L.output_filename _ _ 0 es h
  · intro out contents paths idx es h
    exact writeEntriesLoop_no_self out contents paths idx es h

/-- Concrete instance of `C4_no_entry_for_output_file`: a write loop over
the path `a.txt` with output name `out.txt` emits the entry for `a.txt`,
whose path is not the output name; the run on the concrete world produces
an (empty) entry list with no entry for the output file either. -/
theorem C4_no_entry_for_output_file_witness :
    writeEntriesLoop "out.txt" ["x"] 0 ["a.txt"] = .ok [("a.txt", "x")]
  ∧ generated_entries L0 W0 = .ok []
  ∧ ("a.txt", "x").1 ≠ "out.txt" :=
  ⟨by decide, by decide,
   C4_no_entry_for_output_file.2 "out.txt" ["x"] ["a.txt"] 0 [("a.txt", "x")]
     (by decide) ("a.txt", "x") (by decide)⟩

/-- The running character count of the read loop equals the total length
of the contents collected so far, from any accumulator with that
property. -/
theorem readFold_sum (L : Lister) (w : World) :
    ∀ (ps : List String) (acc : Nat × List String),
      acc.1 = (acc.2.map String.length).sum →
      (ps.foldl (readLoopStep L w) acc).1
        = ((ps.foldl (readLoopStep L w) acc).2.map String.length).sum := by
  intro ps
  induction ps with
  | nil => intro acc h; simpa using h
  | cons p rest ih =>
    intro acc h
    rw [List.foldl_cons]
    apply ih
    unfold readLoopStep
    by_cases hp : (p == L.output_filename) = true
    · rw [if_pos hp]; exact h
    · rw [if_neg hp]; simp [h]

/-- Contents already collected stay collected through the read loop. -/
theorem readFold_mem_mono (L : Lister) (w : World) :
    ∀ (ps : List String) (acc : Nat × List String) (x : String),
      x ∈ acc.2 → x ∈ (ps.foldl (readLoopStep L w) acc).2 := by
  intro ps
  induction ps with
  | nil => intro acc x hx; simpa using hx
  | cons p rest ih =>
    intro acc x hx
    rw [List.foldl_cons]
    apply ih
    unfold readLoopStep
    by_cases hp : (p == L.output_filename) = true
    · rw [if_pos hp]; exact hx
    · rw [if_neg hp]; exact List.mem_append_left _ hx

/-- The read loop collects the read outcome of every path of the sequence
that is not the output file name. -/
theorem readFold_content_mem (L : Lister) (w : World) :
    ∀ (ps : List String) (acc : Nat × List String) (p : String),
      p ∈ ps → (p == L.output_filename) = false →
      read_file_content w p ∈ (ps.foldl (readLoopStep L w) acc).2 := by
  intro ps
  induction ps with
  | nil => intro acc p hp; cases hp
  | cons q rest ih =>
    intro acc p hp hout
    rw [List.foldl_cons]
    cases hp with
    | head =>
      apply readFold_mem_mono
      unfold readLoopStep
      rw [if_neg (by simp [hout])]
      exact List.mem_append_right _ (List.mem_singleton_self _)
    | tail _ hmem => exact ih _ p hmem hout

/-- The read loop produces one content per path that is not the output
file name: no failure truncates the traversal. -/
theorem readFold_length (L : Lister) (w : World) :
    ∀ (ps : List String) (acc : Nat × List String),
      (ps.foldl (readLoopStep L w) acc).2.length
        = acc.2.length + ps.countP (fun q => !(q == L.output_filename)) := by
  intro ps
  induction ps with
  | nil => intro acc; simp
  | cons p rest ih =>
    intro acc
    rw [List.foldl_cons, ih, List.countP_cons]
    unfold readLoopStep
    by_cases hp : (p == L.output_filename) = true
    · rw [if_pos hp]; simp [hp]
    · rw [if_neg hp]; simp [hp]; omega

/-- Claim C5: a failing read does not abort `_read_files_content`: the
content collected for the failing path is the diagnostic string
`Error reading file: <cause>`, the character count equals the total length
of all collected contents (so the diagnostic's length counts exactly like
a successful read's), and every non-skipped path contributes exactly one
content — processing continues past the failure to the remaining paths. -/
theorem C5_read_failure_recovered (L : Lister) (w : World) (ps : List String)
    (p e : String)
    (hmem : p ∈ ps) (hout : (p == L.output_filename) = false)
    (hfail : w.readResult p = .error e) :
    (read_files_content L w ⟨ps⟩).1.1
        = ((read_files_content L w ⟨ps⟩).1.2.map String.length).sum
  ∧ ("Error reading file: " ++ e) ∈ (read_files_content L w ⟨ps⟩).1.2
  ∧ (read_files_content L w ⟨ps⟩).1.2.length
        = ps.countP (fun q => !(q == L.output_filename)) := by
  refine ⟨readFold_sum L w ps (0, []) (by simp), ?_,
    by simpa using readFold_length L w ps (0, [])⟩
  have hdiag : read_file_content w p = "Error reading file: " ++ e := by
    simp [read_file_content, hfail]
  rw [← hdiag]
  exact readFold_content_mem L w ps (0, []) p hmem hout

/-- Concrete instance of `C5_read_failure_recovered`: reading
`base/missing` in the world `W0` fails, its diagnostic is collected and
counted, and both paths of the sequence are processed. -/
theorem C5_read_failure_recovered_witness :
    ("base/missing" ∈ ["base/a.txt", "base/missing"])
  ∧ (("base/missing" : String) == L0.output_filename) = false
  ∧ W0.readResult "base/missing" = .error "No such file or directory"
  ∧ ((read_files_content L0 W0 ⟨["base/a.txt", "base/missing"]⟩).1.1
        = ((read_files_content L0 W0
            ⟨["base/a.txt", "base/missing"]⟩).1.2.map String.length).sum
     ∧ ("Error reading file: " ++ "No such file or directory")
          ∈ (read_files_content L0 W0 ⟨["base/a.txt", "base/missing"]⟩).1.2
     ∧ (read_files_content L0 W0 ⟨["base/a.txt", "base/missing"]⟩).1.2.length
        = (["base/a.txt", "base/missing"] : List String).countP
            (fun q => !(q == L0.output_filename))) :=
  ⟨by decide, by decide, by decide,
   C5_read_failure_recovered L0 W0 ["base/a.txt", "base/missing"]
     "base/missing" "No such file or directory" (by decide) (by decide) (by decide)⟩

/-- A `filterMap` whose function always succeeds is a `map`. -/
theorem filterMap_some_eq_map (fn : String → String) :
    ∀ l : List String, (l.filterMap fun f => some (fn f)) = l.map fn := by
  intro l
  induction l with
  | nil => rfl
  | cons a l ih => simp [List.filterMap_cons, ih]

/-- When the spec object is `None`, the walker filters nothing. -/
theorem list_files_of_specOf_none (L : Lister) (w : World)
    (h : specOf L w = none) : list_files L w = allFiles L w := by
  simp only [list_files, allFiles, h, specExcludes, Bool.false_eq_true, if_false,
    filterMap_some_eq_map]

/-- Claim C7: with no `.gitignore` at the base path, `load_gitignore`
returns `None` without raising, the resulting matcher excludes no path at
all, and the walker yields every regular file under the root. -/
theorem C7_absent_gitignore (L : Lister) (w : World) (p : String)
    (hg : w.gitignore = none) :
    load_gitignore w = none
  ∧ specExcludes (specOf L w) p = false
  ∧ list_files L w = allFiles L w := by
  have h1 : load_gitignore w = none := by simp [load_gitignore, hg]
  have h2 : specOf L w = none := by
    cases hL : L.use_gitignore <;> simp [specOf, hL, h1]
  exact ⟨h1, by simp [h2, specExcludes], list_files_of_specOf_none L w h2⟩

/-- Concrete instance of `C7_absent_gitignore` on the world `W0`, whose
base path holds no `.gitignore`. -/
theorem C7_absent_gitignore_witness :
    W0.gitignore = none
  ∧ (load_gitignore W0 = none
     ∧ specExcludes (specOf L0 W0) "base/a.txt" = false
     ∧ list_files L0 W0 = allFiles L0 W0) :=
  ⟨by decide, C7_absent_gitignore L0 W0 "base/a.txt" (by decide)⟩

/-- Claim C8: the walk is deterministic: its ordered output depends only
on the directory tree and the ignore rules — two runs over worlds with the
same unchanged tree and the same `.gitignore` (whatever their read
outcomes) yield the identical ordered path sequence. -/
theorem C8_walk_deterministic (L : Lister) (w1 w2 : World)
    (ht : w1.tree = w2.tree) (hg : w1.gitignore = w2.gitignore) :
    list_files L w1 = list_files L w2 := by
  have hs : specOf L w1 = specOf L w2 := by
    simp [specOf, load_gitignore, hg]
  simp only [list_files, ht, hs]

/-- Concrete instance of `C8_walk_deterministic`: the worlds `W0` and
`W0p` share tree and `.gitignore` but differ in every read outcome, and
the two walks coincide. -/
theorem C8_walk_deterministic_witness :
    W0.tree = W0p.tree
  ∧ W0.gitignore = W0p.gitignore
  ∧ list_files L0 W0 = list_files L0 W0p :=
  ⟨rfl, rfl, C8_walk_deterministic L0 W0 W0p rfl rfl⟩

/-- Claim C9: constructed with `use_gitignore=False`, the lister applies
no ignore filtering: the walker yields every regular file under the base
path, even when a `.gitignore` with matching rules exists there. -/
theorem C9_no_filtering_when_disabled (L : Lister) (w : World)
    (h : L.use_gitignore = false) :
    list_files L w = allFiles L w := by
  apply list_files_of_specOf_none
  simp [specOf, h]

/-- Concrete instance of `C9_no_filtering_when_disabled`: `L2` disables
`.gitignore` handling and the world `W1` holds a `.gitignore` whose rule
`*.log` matches `base/b.log`, yet `b.log` is yielded. -/
theorem C9_no_filtering_when_disabled_witness :
    L2.use_gitignore = false
  ∧ W1.gitignore = some ["*.log"]
  ∧ allFiles L2 W1 = ["base/a.txt", "base/b.log"]
  ∧ list_files L2 W1 = allFiles L2 W1 :=
  ⟨by decide, by decide, by decide, C9_no_filtering_when_disabled L2 W1 (by decide)⟩

/-- Claim C10: `read_file_content` is total — it returns a string for
every path and world, whatever exception the read raises — and that
string is either the file's decoded content (on a successful read) or the
diagnostic `Error reading file: <cause>` (on any failure). -/
theorem C10_read_file_content_total (w : World) (p : String) :
    (∃ c, w.readResult p = .ok c ∧ read_file_content w p = c)
  ∨ (∃ e, w.readResult p = .error e
        ∧ read_file_content w p = "Error reading file: " ++ e) := by
  cases h : w.readResult p with
  | ok c => exact .inl ⟨c, rfl, by simp [read_file_content, h]⟩
  | error e => exact .inr ⟨e, rfl, by simp [read_file_content, h]⟩

end CodebaseLister
